import Mathlib

set_option maxRecDepth 16384

/-!
Verification development for the proxy-list scraper pipeline
(`update_proxies.py`).  The Python program is shallowly embedded:

* `Proxy` mirrors the `Proxy` dataclass (fields typed per its
  annotations; Python floats are modelled as rationals).
* The registry `self.proxies : Dict[str, Proxy]` is modelled as an
  insertion-ordered association list with Python-dict insert semantics.
* String work is done on `List Char` with structural recursion so that
  every definition evaluates inside the kernel.
* Network effects (HTTP responses, socket probes, proxied requests) are
  modelled as explicit data passed to the pure pipeline functions.
-/

/-! ## Character / string helpers (ASCII fragment of the Python behaviour) -/

/-- Split a character list at every occurrence of `sep`, like Python's
`str.split(sep)`: always returns at least one (possibly empty) piece. -/
def splitOnChar (sep : Char) : List Char → List (List Char)
  | [] => [[]]
  | c :: cs =>
    let r := splitOnChar sep cs
    if c = sep then [] :: r
    else
      match r with
      | [] => [[c]]
      | h :: t => (c :: h) :: t

/-- All characters are ASCII decimal digits (`str.isascii() and str.isdigit()`;
non-ASCII digits accepted by Python's `\d` are not modelled). -/
def allDigits (l : List Char) : Bool := l.all Char.isDigit

/-- Numeric value of a list of decimal digits. -/
def digitsVal (l : List Char) : Nat := l.foldl (fun a c => a * 10 + (c.toNat - 48)) 0

/-- Python `str.strip()` restricted to ASCII whitespace. -/
def pyStrip (l : List Char) : List Char :=
  ((l.dropWhile Char.isWhitespace).reverse.dropWhile Char.isWhitespace).reverse

/-- Does `pat` occur at the head of `l`? -/
def leadsWith : List Char → List Char → Bool
  | [], _ => true
  | _ :: _, [] => false
  | p :: ps, c :: cs => p == c && leadsWith ps cs

/-- Does the character sequence "json" occur anywhere in `l`?
Models Python's `"json" in content_type`. -/
def containsJson : List Char → Bool
  | [] => false
  | c :: cs => leadsWith ['j', 's', 'o', 'n'] (c :: cs) || containsJson cs

/-- Model of `"json" in content_type` where the content type has been
lower-cased first (`response.headers.get("Content-Type", "").lower()`),
restricted to ASCII lower-casing. -/
def hasJsonCT (ct : String) : Bool := containsJson (ct.data.map Char.toLower)

/-! ## `ipaddress.ip_address` syntax validation

`ipaddress.ip_address(s)` succeeds exactly when `s` is a syntactically
valid IPv4 or IPv6 literal.  The definitions below follow CPython's
`ipaddress` module: `_parse_octet` for IPv4 (ASCII digits, at most three
of them, no leading zero, value at most 255) and `_ip_int_from_string`
for IPv6 (colon-separated hextets, a single optional `::` gap, an
optional embedded IPv4 in the last group, an optional non-empty zone id
after `%`). -/

/-- Leading-zero check of `_parse_octet`: `"0"` is fine, `"0…"` is not. -/
def octetLeadOk : List Char → Bool
  | '0' :: _ :: _ => false
  | _ => true

/-- One dotted-quad octet per CPython `_parse_octet`. -/
def octetOk (o : List Char) : Bool :=
  !o.isEmpty && allDigits o && decide (o.length ≤ 3) && octetLeadOk o &&
    decide (digitsVal o ≤ 255)

/-- Valid IPv4 literal: exactly four valid octets separated by dots. -/
def isValidIPv4L (l : List Char) : Bool :=
  match splitOnChar '.' l with
  | [a, b, c, d] => octetOk a && octetOk b && octetOk c && octetOk d
  | _ => false

/-- Hex digit set of CPython's `_parse_hextet`. -/
def isHexDigitA (c : Char) : Bool :=
  c.isDigit || ('a' ≤ c && c ≤ 'f') || ('A' ≤ c && c ≤ 'F')

/-- One IPv6 hextet: one to four hex digits. -/
def hextetOk (h : List Char) : Bool :=
  !h.isEmpty && decide (h.length ≤ 4) && h.all isHexDigitA

/-- The group check of `_ip_int_from_string`, applied to the result of
splitting the address on `:`.  `parts` may contain at most one empty
interior entry (the `::` gap); an empty first (resp. last) entry is only
allowed when it is adjacent to the gap.  Without a gap there must be
exactly eight groups.  At most seven explicit groups may accompany a
gap (at least one group must be skipped). -/
def ipv6GroupsOk (parts : List (List Char)) : Bool :=
  let n := parts.length
  if 9 < n then false
  else
    match (List.range n).filter
        (fun i => decide (1 ≤ i) && decide (i + 1 < n) && (parts.getD i ['x']).isEmpty) with
    | [] =>
      decide (n = 8) && !(parts.getD 0 ['x']).isEmpty &&
        !(parts.getD (n - 1) ['x']).isEmpty && parts.all hextetOk
    | [k] =>
      let headEmpty := (parts.getD 0 ['x']).isEmpty
      let lastEmpty := (parts.getD (n - 1) ['x']).isEmpty
      (if headEmpty then decide (k = 1) else true) &&
      (if lastEmpty then decide (k = n - 2) else true) &&
      (let hi := if headEmpty then 0 else k
       let lo := if lastEmpty then 0 else n - k - 1
       decide (hi + lo ≤ 7) && (parts.take hi).all hextetOk &&
         (parts.drop (n - lo)).all hextetOk)
    | _ => false

/-- Split off a zone id (`%zone`): at most one `%`, with a non-empty zone. -/
def scopeSplit (l : List Char) : Option (List Char) :=
  match splitOnChar '%' l with
  | [a] => some a
  | [a, z] => if z.isEmpty then none else some a
  | _ => none

/-- Valid IPv6 literal per CPython: a `/` anywhere is rejected up
front (before the scope id is split off); then `_ip_int_from_string`:
at least three colon-separated parts; a final part containing `.` must
be a valid IPv4 literal and stands for two (always syntactically valid)
hextets. -/
def isValidIPv6L (l : List Char) : Bool :=
  if l.contains '/' then false else
  match scopeSplit l with
  | none => false
  | some addr =>
    let parts := splitOnChar ':' addr
    if parts.length < 3 then false
    else
      match parts.getLast? with
      | none => false
      | some last =>
        if last.contains '.' then
          isValidIPv4L last && ipv6GroupsOk (parts.dropLast ++ [['0'], ['0']])
        else ipv6GroupsOk parts

/-- Model of "`ipaddress.ip_address(s)` does not raise `ValueError`". -/
def isValidIP (s : String) : Bool := isValidIPv4L s.data || isValidIPv6L s.data

/-- The runtime value held in a proxy record's `ip` field.  The
dataclass annotates `ip : str`, but Python does not enforce it: the
structured (JSON) branch of `scrape_source` passes the raw truthy
`ip`/`host`/`addr` value straight to the `Proxy` constructor, so the
field can hold a string, an integer, or `True`.  A truthy JSON array or
object is collapsed to `vlist`/`vdict`: nothing observable depends on
its contents, because `ipaddress.ip_address` stringifies such a value
with `str()`, whose text begins with `[` or `\x7b` and therefore never
parses as an IPv4 or IPv6 literal (the first colon- or dot-separated
part is nonempty and contains that character, and both parsers inspect
it on every path), so such a candidate is never stored; and the socket
probe raises `TypeError` on any non-string host. -/
inductive IpVal where
  | vstr (s : String)
  | vint (n : Int)
  | vbool (b : Bool)
  | vnone
  | vlist
  | vdict
deriving DecidableEq

/-- Python `str()` of an `ip` value, as used by the `address` f-string
and the CSV writer.  The `str()` text of a list or dict is not modelled
beyond its unusable first character: no record with such an address
value is ever stored (see `pyAddressOk`), so this string never reaches
the registry, the outputs, or the probes. -/
def pyStrIp : IpVal → String
  | .vstr s => s
  | .vint n => toString n
  | .vbool b => if b then "True" else "False"
  | .vnone => "None"
  | .vlist => "["
  | .vdict => "\x7b"

/-- Model of "`ipaddress.ip_address(x)` does not raise" on the runtime
value `x`, following CPython's type dispatch: an `int` (and hence a
`bool`) is accepted as a packed address when it lies in
`[0, 2^128 - 1]` (`IPv4Address` takes `[0, 2^32 - 1]`, then
`IPv6Address` is tried); a `str` must be a syntactically valid IPv4 or
IPv6 literal; any other value is converted with `str()` first, and the
resulting text (`"None"`, or a list/dict repr beginning with `[` or a
brace) never parses. -/
def pyAddressOk : IpVal → Bool
  | .vstr s => isValidIP s
  | .vint n => decide (0 ≤ n) && decide (n < 2 ^ 128)
  | .vbool _ => true
  | .vnone => false
  | .vlist => false
  | .vdict => false

/-- One socket probe of `_socket_check`:
`sock.connect_ex((proxy.ip, proxy.port))` with the outcome for a string
host given by the oracle `qf`; a non-string host makes `connect_ex`
raise `TypeError`, which the bare `except` turns into `False`. -/
def socketOk (qf : String → Int → Bool) (ipv : IpVal) (port : Int) : Bool :=
  match ipv with
  | .vstr s => qf s port
  | _ => false

/-! ## The `Proxy` dataclass -/

/-- The `Proxy` dataclass of `update_proxies.py`, with its declared
defaults (`float` modelled as `ℚ`).  The `ip` field holds the dynamic
runtime value actually passed to the constructor (see `IpVal`): the
`str` annotation is not enforced by Python. -/
structure Proxy where
  ip : IpVal
  port : Int
  protocol : String := "http"
  country : String := ""
  anonymity : String := ""
  speed : ℚ := 0
  last_checked : String := ""
  working : Bool := false
deriving DecidableEq

/-- The `address` property: `f"{self.ip}:{self.port}"` (the f-string
applies `str()` to the ip value). -/
def Proxy.address (p : Proxy) : String := pyStrIp p.ip ++ ":" ++ toString p.port

/-! ## `_parse_proxy_from_text` -/

/-- Whole-line match of `^(\d{1,3}\.\d{1,3}\.\d{1,3}\.\d{1,3}):(\d+)$`:
exactly one colon, a port of one or more digits after it, and before it
four dot-separated groups of one to three digits.  Returns the captured
ip string and the port digits. -/
def matchIpPortL (l : List Char) : Option (List Char × List Char) :=
  match splitOnChar ':' l with
  | [a, b] =>
    if !b.isEmpty && allDigits b &&
        (match splitOnChar '.' a with
         | [o1, o2, o3, o4] =>
           [o1, o2, o3, o4].all fun o => !o.isEmpty && decide (o.length ≤ 3) && allDigits o
         | _ => false)
    then some (a, b) else none
  | _ => none

/-- `ProxyScraper._parse_proxy_from_text`: empty lines are rejected, the
line must match the `<IPv4>:<port>` pattern as a whole, the captured
address must satisfy `ipaddress.ip_address` and the port must lie in
`[1, 65535]`; the produced record carries the dataclass defaults. -/
def parseProxyFromText (text : String) : Option Proxy :=
  if text.data.isEmpty then none
  else
    match matchIpPortL text.data with
    | some (a, b) =>
      let port := digitsVal b
      if isValidIP (String.mk a) && decide (1 ≤ port) && decide (port ≤ 65535)
      then some { ip := IpVal.vstr (String.mk a), port := (port : Int) } else none
    | none => none

/-! ## JSON values and the structured extraction of `scrape_source` -/

/-- JSON values as decoded by `response.json()`.  Numeric values are
modelled as integers (no claim depends on fractional JSON numbers). -/
inductive Jval where
  | jnull
  | jbool (b : Bool)
  | jnum (n : Int)
  | jstr (s : String)
  | jarr (items : List Jval)
  | jobj (fields : List (String × Jval))

/-- Python truthiness of a JSON value. -/
def pyTruthy : Jval → Bool
  | .jnull => false
  | .jbool b => b
  | .jnum n => n != 0
  | .jstr s => !s.data.isEmpty
  | .jarr l => !l.isEmpty
  | .jobj l => !l.isEmpty

/-- `dict.get(k)`: `none` models Python's `None` for a missing key
(decoded JSON objects have unique keys). -/
def jGet (fields : List (String × Jval)) (k : String) : Option Jval :=
  (fields.find? (fun kv => kv.1 == k)).map (fun kv => kv.2)

/-- The value of `item.get("ip") or item.get("host") or item.get("addr")`
when it is truthy: the first truthy value of the chain, if any. -/
def ipChain (fields : List (String × Jval)) : Option Jval :=
  [jGet fields "ip", jGet fields "host", jGet fields "addr"].findSome?
    (fun v => match v with
      | some w => if pyTruthy w then some w else none
      | none => none)

/-- Python `int(s)` on a string: optional sign, then ASCII digits
(underscore digit grouping and non-ASCII digits are not modelled). -/
def pyIntOfChars (l : List Char) : Option Int :=
  match pyStrip l with
  | '+' :: rest => if !rest.isEmpty && allDigits rest then some (Int.ofNat (digitsVal rest)) else none
  | '-' :: rest => if !rest.isEmpty && allDigits rest then some (-(Int.ofNat (digitsVal rest))) else none
  | t => if !t.isEmpty && allDigits t then some (Int.ofNat (digitsVal t)) else none

/-- Python `int(x)`: `none` models a raised `ValueError`/`TypeError`. -/
def pyInt : Jval → Option Int
  | .jnum n => some n
  | .jbool b => some (if b then 1 else 0)
  | .jstr s => pyIntOfChars s.data
  | _ => none

/-- Decimal value `ipart.fpart`. -/
def decimalVal (ipart fpart : List Char) : ℚ :=
  (digitsVal ipart : ℚ) + (digitsVal fpart : ℚ) / ((10 : ℚ) ^ fpart.length)

/-- Python `float(s)` on a string, for plain decimal forms
(`"12"`, `"1.5"`, `".5"`, `"2."`; exponents, `inf` and `nan` are not
modelled). -/
def pyFloatBody (t : List Char) : Option ℚ :=
  match splitOnChar '.' t with
  | [a] => if !a.isEmpty && allDigits a then some ((digitsVal a : ℚ)) else none
  | [a, b] =>
    if (!a.isEmpty || !b.isEmpty) && allDigits a && allDigits b
    then some (decimalVal a b) else none
  | _ => none

/-- Python `float(s)` on a string, with optional sign. -/
def pyFloatOfChars (l : List Char) : Option ℚ :=
  match pyStrip l with
  | '+' :: rest => pyFloatBody rest
  | '-' :: rest => (pyFloatBody rest).map Neg.neg
  | t => pyFloatBody t

/-- Python `float(x)`: `none` models a raised `ValueError`/`TypeError`. -/
def pyFloat : Jval → Option ℚ
  | .jnum n => some ((n : Int) : ℚ)
  | .jbool b => some (if b then 1 else 0)
  | .jstr s => pyFloatOfChars s.data
  | _ => none

/-- `item.get(k, dflt)` for the string-typed metadata fields
(`protocol`, `country`, `anonymity`, `last_checked`).  The dataclass
declares these fields `str`; a present non-string value is not
modelled and falls back to the default. -/
def getStr (fields : List (String × Jval)) (k dflt : String) : String :=
  match jGet fields k with
  | some (.jstr s) => s
  | _ => dflt

/-- The coercion of a (truthy) decoded JSON value into the `ip` field:
strings, integers and booleans are carried exactly; arrays and objects
are collapsed (their contents are observably irrelevant, see `IpVal`).
`jnull` is falsy and never reaches this point. -/
def toIpVal : Jval → IpVal
  | .jstr s => .vstr s
  | .jnum n => .vint n
  | .jbool b => .vbool b
  | .jnull => .vnone
  | .jarr _ => .vlist
  | .jobj _ => .vdict

/-- Extraction of one candidate from one element of a structured source
(the loop body of `scrape_source`'s JSON branch): elements that are not
keyed records are skipped; the address comes from the
`ip`/`host`/`addr` chain and the port from `port`, both of which must
be truthy; a failing `int(port)` or `float(speed)` conversion skips the
element (`except (ValueError, TypeError): continue`).  The address
value is passed to the `Proxy` constructor as-is, whatever its runtime
type. -/
def extractItem : Jval → Option Proxy
  | .jobj fields =>
    match ipChain fields, jGet fields "port" with
    | some ipv, some portv =>
      if pyTruthy portv then
        match pyInt portv, pyFloat ((jGet fields "speed").getD (.jnum 0)) with
        | some port, some speed =>
          some { ip := toIpVal ipv, port := port,
                 protocol := getStr fields "protocol" "http",
                 country := getStr fields "country" "",
                 anonymity := getStr fields "anonymity" "",
                 speed := speed,
                 last_checked := getStr fields "last_checked" "" }
        | _, _ => none
      else none
    | _, _ => none
  | _ => none

/-! ## The registry (`self.proxies : Dict[str, Proxy]`) -/

/-- The registry is a Python dict: an insertion-ordered association
list with unique keys. -/
abbrev Registry := List (String × Proxy)

/-- Python dict assignment `d[k] = v`: overwrite in place if the key is
present, otherwise append. -/
def dictInsert : Registry → String → Proxy → Registry
  | [], k, v => [(k, v)]
  | (k', v') :: rest, k, v =>
    if k' = k then (k, v) :: rest else (k', v') :: dictInsert rest k v

/-- Python dict lookup `d.get(k)`. -/
def dictLookup : Registry → String → Option Proxy
  | [], _ => none
  | (k', v') :: rest, k => if k' = k then some v' else dictLookup rest k

/-- The registration guard of `_add_proxy`: `ipaddress.ip_address` must
accept the address value (per its runtime type, see `pyAddressOk`) and
the port must lie in `[1, 65535]`. -/
def validProxy (p : Proxy) : Bool :=
  pyAddressOk p.ip && decide (1 ≤ p.port) && decide (p.port ≤ 65535)

/-- `ProxyScraper._add_proxy`: validate, then store under the
`address` key (silently dropping invalid candidates). -/
def addProxy (reg : Registry) (p : Proxy) : Registry :=
  if validProxy p then dictInsert reg p.address p else reg

/-- Registering a list of candidates in order. -/
def foldAdd (cs : List Proxy) (reg : Registry) : Registry := cs.foldl addProxy reg

/-! ## `scrape_source` -/

/-- One source's HTTP response, as consumed by `scrape_source`:
the declared `Content-Type` header, the result of `response.json()`
(`none` models a raised `json.JSONDecodeError`), and `response.text`. -/
structure SourceResponse where
  contentType : String
  json : Option Jval
  text : String

/-- Result of fetching one source: `session.get` + `raise_for_status`
either produce a response or raise (timeout, transport error,
non-retryable status), which `scrape_source` catches. -/
inductive FetchOutcome where
  | success (r : SourceResponse)
  | failure

/-- The elements iterated by the structured (JSON) branch: the decoded
array itself, or, for a decoded object, the concatenation of the array
values of the container keys `data`, `proxies`, `items`, `results`
(each present key is processed). -/
def structuredItems (r : SourceResponse) : List Jval :=
  if hasJsonCT r.contentType then
    match r.json with
    | some (.jarr items) => items
    | some (.jobj fields) =>
      ["data", "proxies", "items", "results"].flatMap fun k =>
        match jGet fields k with
        | some (.jarr l) => l
        | _ => []
    | _ => []
  else []

/-- Candidates produced by the structured branch. -/
def structuredCandidates (r : SourceResponse) : List Proxy :=
  (structuredItems r).filterMap extractItem

/-- Candidates produced by the line-oriented fallback: split the body
on newlines, strip each line, parse it. -/
def lineCandidates (body : String) : List Proxy :=
  (splitOnChar '\n' body.data).filterMap
    (fun l => parseProxyFromText (String.mk (pyStrip l)))

/-- `ProxyScraper.scrape_source`, given the fetch outcome: on a fetch
failure the exception handler leaves the registry untouched and the
count at zero.  Otherwise the structured branch registers its
candidates (`count` is incremented per extracted candidate, accepted or
not), and exactly when `count == 0` the body is re-processed line by
line.  Returns the updated registry and the returned `count`. -/
def scrapeSource : FetchOutcome → Registry → Registry × Nat
  | .failure, reg => (reg, 0)
  | .success r, reg =>
    let reg1 := foldAdd (structuredCandidates r) reg
    let count1 := (structuredCandidates r).length
    if count1 = 0 then
      (foldAdd (lineCandidates r.text) reg1, count1 + (lineCandidates r.text).length)
    else (reg1, count1)

/-- The candidates a source contributes to the registry. -/
def sourceCandidates : FetchOutcome → List Proxy
  | .failure => []
  | .success r =>
    if (structuredCandidates r).length = 0 then lineCandidates r.text
    else structuredCandidates r

/-- `scrape_all_sources` merges every source's registrations into the
shared registry; the list order of `outs` is the order in which the
individual registrations happen to be interleaved. -/
def runScrape (outs : List FetchOutcome) (reg : Registry) : Registry :=
  outs.foldl (fun r o => (scrapeSource o r).1) reg

/-- All candidates registered during a scrape, in registration order. -/
def allCandidates (outs : List FetchOutcome) : List Proxy :=
  outs.flatMap sourceCandidates

/-! ## `quick_filter_proxies` and validation -/

/-- `ProxyScraper.quick_filter_proxies`, with the socket-probe results
given by the oracle `qf ip port` (`_socket_check` connects to
`(proxy.ip, proxy.port)`): a fresh dict is built, keyed by
`proxy.address`, holding exactly the records whose probe succeeded,
and it replaces the registry. -/
def quickFilter (qf : String → Int → Bool) (reg : Registry) : Registry :=
  ((reg.map (fun kv => kv.2)).filter (fun p => socketOk qf p.ip p.port)).foldl
    (fun acc p => dictInsert acc p.address p) []

/-- Outcome of the validation request
`session.get(VALIDATION_URL, proxies=..., timeout=...)`: a response
with its status code and the wall-clock times around the call, or a
raised exception (timeout, connection failure, …). -/
inductive ValOutcome where
  | response (status : Nat) (startTime endTime : ℚ)
  | failure

/-- The proxy URL `f"{proxy.protocol}://{proxy.address}"` used for the
validation request. -/
def proxyUrl (p : Proxy) : String := p.protocol ++ "://" ++ p.address

/-- `ProxyScraper._fast_validate_proxy`: returns whether validation
succeeded, and the record as mutated by it.  Only a status-200 response
sets `speed = end_time - start_time` and `anonymity = "unknown"`; any
exception or non-200 status leaves the record unchanged and returns
`False`. -/
def fastValidate (p : Proxy) (out : ValOutcome) : Bool × Proxy :=
  match out with
  | .response status t0 t1 =>
    if status = 200 then (true, { p with speed := t1 - t0, anonymity := "unknown" })
    else (false, p)
  | .failure => (false, p)

/-- One record's trip through `validate_proxies`: `working` is set to
the validator's verdict and `last_checked` is stamped.  (The
`except` branch of the result loop, which would skip the stamp, is
unreachable: `_fast_validate_proxy` catches every exception and
returns `False`.) -/
def valStepOut (p : Proxy) (out : ValOutcome) (now : String) : Proxy :=
  let r := fastValidate p out
  { r.2 with working := r.1, last_checked := now }

/-- `ProxyScraper.validate_proxies` with the per-request outcomes given
by the oracle `vo` (keyed by the proxy URL the request is routed
through) and the timestamp by `now`: every record is validated
independently and mutated in place; batching only affects scheduling,
not the per-record result. -/
def validateProxies (vo : String → ValOutcome) (now : String) (reg : Registry) : Registry :=
  reg.map (fun kv => (kv.1, valStepOut kv.2 (vo (proxyUrl kv.2)) now))

/-! ## `save_results` and the run -/

/-- Insert into a sorted list of strings (lexicographic, as Python's
`list.sort()` on `IP:PORT` strings). -/
def insortStr (s : String) : List String → List String
  | [] => [s]
  | x :: xs => if s ≤ x then s :: x :: xs else x :: insortStr s xs

/-- Ascending sort of strings. -/
def sortStrs (l : List String) : List String := l.foldr insortStr []

/-- `"\n".join(lines)`. -/
def joinLines : List String → String
  | [] => ""
  | [s] => s
  | s :: rest => s ++ "\n" ++ joinLines rest

/-- Python's `f"{x:.2f}"`: fixed two-decimal rendering, rounding half
to even on the rational value (binary floating-point rounding of the
underlying double is not modelled; negative values keep Python's minus
sign only when the rounded value is nonzero). -/
def fmt2 (q : ℚ) : String :=
  let c : Int :=
    let f : Int := ⌊q * 100⌋
    let r : ℚ := q * 100 - (f : ℚ)
    if r < 1/2 then f else if 1/2 < r then f + 1 else if f % 2 = 0 then f else f + 1
  let m := c.natAbs
  (if c < 0 then "-" else "") ++ toString (m / 100) ++ "." ++
    (if m % 100 < 10 then "0" else "") ++ toString (m % 100)

/-- The CSV row written for one working proxy. -/
def csvRow (p : Proxy) : List String :=
  [pyStrIp p.ip, toString p.port, p.protocol, p.country, p.anonymity,
    fmt2 p.speed, p.last_checked]

/-- The header row of `working_proxies.csv`. -/
def csvHeader : List String :=
  ["IP", "Port", "Protocol", "Country", "Anonymity", "Speed (s)", "Last Checked"]

/-- The README produced by `_update_readme` (its f-string template,
with the timestamp and the working-proxy count spliced in). -/
def readmeText (now : String) (total : Nat) : String :=
  "# Proxy List\n\nAutomatically updated repository of free public proxies. Hourly refreshed HTTP/HTTPS proxies for web scraping, cybersecurity, and testing. Raw list available.\n\n**Last Updated:** `" ++
    now ++ "`  \n**Total Proxies:** `" ++ toString total ++
    "`\n\n## 📥 Download\n```bash\ncurl -O https://raw.githubusercontent.com/theriturajps/proxy-list/main/proxies.txt\n```\n        "

/-- The file artifacts produced by `save_results` (content only; the
duplicate copy of `proxies.txt` in `output/` has the same content). -/
structure Artifacts where
  txt : String
  allJson : List (String × Proxy)
  workingJson : List (String × Proxy)
  csv : List (List String)
  readme : String

/-- The working records, in registry order. -/
def workingRecs (reg : Registry) : List Proxy :=
  (reg.map (fun kv => kv.2)).filter (fun p => p.working)

/-- `ProxyScraper.save_results`: the sorted `IP:PORT` text file of
working proxies, the all/working JSON dicts keyed by `address`
(`to_dict` serialises exactly the record's fields), the CSV of working
proxies, and the README. -/
def saveResults (reg : Registry) (now : String) : Artifacts :=
  { txt := joinLines (sortStrs ((workingRecs reg).map Proxy.address))
    allJson := (reg.map (fun kv => kv.2)).map (fun p => (p.address, p))
    workingJson := (workingRecs reg).map (fun p => (p.address, p))
    csv := csvHeader :: (workingRecs reg).map csvRow
    readme := readmeText now (workingRecs reg).length }

/-- The registry at the end of a run: scrape into an empty registry,
quick-filter, validate. -/
def finalRegistry (outs : List FetchOutcome) (qf : String → Int → Bool)
    (vo : String → ValOutcome) (now : String) : Registry :=
  validateProxies vo now (quickFilter qf (runScrape outs []))

/-- The whole `__main__` run: every invocation starts from an empty
registry and ends by writing the artifacts. -/
def runPipeline (outs : List FetchOutcome) (qf : String → Int → Bool)
    (vo : String → ValOutcome) (now : String) : Artifacts :=
  saveResults (finalRegistry outs qf vo now) now

/-! ## Registry lemmas -/

/-- Keys of a registry, in order. -/
def regKeys (reg : Registry) : List String := reg.map Prod.fst

/-- Key consistency: every record is stored under its own `address`. -/
def regInv (reg : Registry) : Prop := ∀ kv ∈ reg, Prod.fst kv = Proxy.address kv.2

instance (reg : Registry) : Decidable (regInv reg) := by
  unfold regInv
  infer_instance

/-- Guarded insertion fold: the common shape of `_add_proxy` iterated
over candidates and of the dict rebuild in `quick_filter_proxies`. -/
def foldIns (g : Proxy → Bool) (cs : List Proxy) (reg : Registry) : Registry :=
  cs.foldl (fun acc p => if g p then dictInsert acc p.address p else acc) reg

theorem dictLookup_insert (reg : Registry) (k a : String) (v : Proxy) :
    dictLookup (dictInsert reg k v) a = if a = k then some v else dictLookup reg a := by
  induction reg with
  | nil =>
    simp only [dictInsert, dictLookup]
    by_cases h : a = k
    · subst h; simp
    · rw [if_neg (fun hh => h hh.symm), if_neg h]
  | cons kv rest ih =>
    obtain ⟨k', v'⟩ := kv
    by_cases hk : k' = k
    · subst hk
      simp only [dictInsert, if_pos rfl, dictLookup]
      by_cases h : a = k'
      · subst h; simp
      · rw [if_neg (fun hh => h hh.symm), if_neg h, if_neg (fun hh => h hh.symm)]
    · simp only [dictInsert, if_neg hk, dictLookup]
      by_cases h1 : k' = a
      · subst h1
        rw [if_pos rfl, if_neg hk, if_pos rfl]
      · rw [if_neg h1, ih]
        by_cases h2 : a = k
        · rw [if_pos h2, if_pos h2]
        · rw [if_neg h2, if_neg h2, if_neg h1]

theorem mem_dictInsert (k a : String) (v p : Proxy) :
    ∀ reg : Registry, (a, p) ∈ dictInsert reg k v → (a, p) ∈ reg ∨ (a = k ∧ p = v) := by
  intro reg
  induction reg with
  | nil =>
    intro h
    simp only [dictInsert, List.mem_singleton] at h
    exact Or.inr ⟨congrArg Prod.fst h, congrArg Prod.snd h⟩
  | cons kv rest ih =>
    obtain ⟨k', v'⟩ := kv
    intro h
    by_cases hk : k' = k
    · subst hk
      simp only [dictInsert, if_true, eq_self_iff_true] at h
      rcases List.mem_cons.mp h with h | h
      · exact Or.inr ⟨congrArg Prod.fst h, congrArg Prod.snd h⟩
      · exact Or.inl (List.mem_cons_of_mem _ h)
    · simp only [dictInsert] at h
      rw [if_neg hk] at h
      rcases List.mem_cons.mp h with h | h
      · exact Or.inl (List.mem_cons.mpr (Or.inl h))
      · rcases ih h with h2 | h2
        · exact Or.inl (List.mem_cons_of_mem _ h2)
        · exact Or.inr h2

theorem regKeys_mem_dictInsert (k a : String) (v : Proxy) :
    ∀ reg : Registry, a ∈ regKeys (dictInsert reg k v) → a ∈ regKeys reg ∨ a = k := by
  intro reg
  induction reg with
  | nil =>
    intro h
    simpa [regKeys, dictInsert] using h
  | cons kv rest ih =>
    obtain ⟨k', v'⟩ := kv
    intro h
    by_cases hk : k' = k
    · subst hk
      simp only [regKeys, dictInsert, if_true, eq_self_iff_true, List.map_cons,
        List.mem_cons] at h ⊢
      rcases h with h | h
      · exact Or.inr h
      · exact Or.inl (Or.inr h)
    · simp only [regKeys, dictInsert] at h ⊢
      rw [if_neg hk] at h
      simp only [List.map_cons, List.mem_cons] at h ⊢
      rcases h with h | h
      · exact Or.inl (Or.inl h)
      · rcases ih h with h2 | h2
        · exact Or.inl (Or.inr h2)
        · exact Or.inr h2

theorem nodup_regKeys_dictInsert (k : String) (v : Proxy) :
    ∀ reg : Registry, (regKeys reg).Nodup → (regKeys (dictInsert reg k v)).Nodup := by
  intro reg
  induction reg with
  | nil =>
    intro _
    simp [regKeys, dictInsert]
  | cons kv rest ih =>
    obtain ⟨k', v'⟩ := kv
    intro h
    simp only [regKeys, List.map_cons, List.nodup_cons] at h
    by_cases hk : k' = k
    · subst hk
      simp only [regKeys, dictInsert, if_true, eq_self_iff_true]
      simpa using h
    · simp only [regKeys, dictInsert]
      rw [if_neg hk]
      simp only [List.map_cons, List.nodup_cons]
      refine ⟨fun hmem => ?_, ih h.2⟩
      rcases regKeys_mem_dictInsert k k' v rest hmem with h2 | h2
      · exact h.1 h2
      · exact hk h2

theorem addProxy_eq_foldIns_step (reg : Registry) (p : Proxy) :
    addProxy reg p = if validProxy p then dictInsert reg p.address p else reg := rfl

theorem foldAdd_eq_foldIns (cs : List Proxy) (reg : Registry) :
    foldAdd cs reg = foldIns validProxy cs reg := rfl

theorem mem_foldIns (g : Proxy → Bool) (a : String) (p : Proxy) :
    ∀ (cs : List Proxy) (reg : Registry), (a, p) ∈ foldIns g cs reg →
      (a, p) ∈ reg ∨ (p ∈ cs ∧ g p = true ∧ a = p.address) := by
  intro cs
  induction cs with
  | nil => intro reg h; exact Or.inl h
  | cons c cs ih =>
    intro reg h
    simp only [foldIns, List.foldl_cons] at h
    rcases ih _ h with h1 | h1
    · by_cases hg : g c = true
      · rw [if_pos hg] at h1
        rcases mem_dictInsert c.address a c p reg h1 with h2 | h2
        · exact Or.inl h2
        · obtain ⟨ha2, hp2⟩ := h2
          subst hp2
          exact Or.inr ⟨List.mem_cons_self _ _, hg, ha2⟩
      · rw [if_neg hg] at h1
        exact Or.inl h1
    · exact Or.inr ⟨List.mem_cons_of_mem _ h1.1, h1.2⟩

theorem nodup_regKeys_foldIns (g : Proxy → Bool) :
    ∀ (cs : List Proxy) (reg : Registry), (regKeys reg).Nodup →
      (regKeys (foldIns g cs reg)).Nodup := by
  intro cs
  induction cs with
  | nil => intro reg h; exact h
  | cons c cs ih =>
    intro reg h
    simp only [foldIns, List.foldl_cons]
    apply ih
    by_cases hg : g c = true
    · rw [if_pos hg]
      exact nodup_regKeys_dictInsert c.address c reg h
    · rw [if_neg hg]
      exact h

theorem lookup_foldIns (g : Proxy → Bool) (a : String) :
    ∀ (cs : List Proxy) (reg : Registry),
      dictLookup (foldIns g cs reg) a =
        (cs.foldl (fun o p => if g p = true ∧ p.address = a then some p else o)
          (dictLookup reg a)) := by
  intro cs
  induction cs with
  | nil => intro reg; rfl
  | cons c cs ih =>
    intro reg
    simp only [foldIns, List.foldl_cons] at ih ⊢
    rw [ih]
    congr 1
    by_cases hg : g c = true
    · rw [if_pos hg, dictLookup_insert]
      by_cases ha : a = c.address
      · rw [if_pos ha, if_pos ⟨hg, ha.symm⟩]
      · rw [if_neg ha, if_neg (fun hh => ha hh.2.symm)]
    · rw [if_neg hg, if_neg (fun hh => hg hh.1)]

theorem regInv_dictInsert (reg : Registry) (p : Proxy) (h : regInv reg) :
    regInv (dictInsert reg p.address p) := by
  intro kv hkv
  obtain ⟨a, q⟩ := kv
  rcases mem_dictInsert p.address a p q reg hkv with h1 | h1
  · exact h _ h1
  · simp only [h1.1, h1.2]

theorem regInv_foldIns (g : Proxy → Bool) :
    ∀ (cs : List Proxy) (reg : Registry), regInv reg → regInv (foldIns g cs reg) := by
  intro cs
  induction cs with
  | nil => intro reg h; exact h
  | cons c cs ih =>
    intro reg h
    simp only [foldIns, List.foldl_cons]
    apply ih
    by_cases hg : g c = true
    · rw [if_pos hg]; exact regInv_dictInsert reg c h
    · rw [if_neg hg]; exact h

theorem lastHit_isSome (g : Proxy → Bool) (a : String) :
    ∀ (cs : List Proxy) (o : Option Proxy),
      (cs.foldl (fun o p => if g p = true ∧ p.address = a then some p else o) o).isSome = true ↔
        (∃ p ∈ cs, g p = true ∧ p.address = a) ∨ o.isSome = true := by
  intro cs
  induction cs with
  | nil => intro o; simp
  | cons c cs ih =>
    intro o
    simp only [List.foldl_cons]
    rw [ih]
    by_cases hc : g c = true ∧ c.address = a
    · rw [if_pos hc]
      have hex : (∃ p ∈ c :: cs, g p = true ∧ p.address = a) :=
        ⟨c, List.mem_cons_self _ _, hc⟩
      simp [hex]
      exact Or.inl (Or.inl hc)
    · rw [if_neg hc]
      constructor
      · rintro (⟨p, hp, hgp⟩ | ho)
        · exact Or.inl ⟨p, List.mem_cons_of_mem _ hp, hgp⟩
        · exact Or.inr ho
      · rintro (⟨p, hp, hgp⟩ | ho)
        · rcases List.mem_cons.mp hp with h1 | h1
          · exact absurd (h1 ▸ hgp) hc
          · exact Or.inl ⟨p, h1, hgp⟩
        · exact Or.inr ho

theorem lastHit_some (g : Proxy → Bool) (a : String) (p : Proxy) :
    ∀ (cs : List Proxy) (o : Option Proxy),
      cs.foldl (fun o p => if g p = true ∧ p.address = a then some p else o) o = some p →
        (p ∈ cs ∧ g p = true ∧ p.address = a) ∨ o = some p := by
  intro cs
  induction cs with
  | nil => intro o h; exact Or.inr h
  | cons c cs ih =>
    intro o h
    simp only [List.foldl_cons] at h
    rcases ih _ h with h1 | h1
    · exact Or.inl ⟨List.mem_cons_of_mem _ h1.1, h1.2⟩
    · by_cases hc : g c = true ∧ c.address = a
      · rw [if_pos hc] at h1
        obtain rfl : c = p := Option.some.inj h1
        exact Or.inl ⟨List.mem_cons_self _ _, hc⟩
      · rw [if_neg hc] at h1
        exact Or.inr h1

theorem dictLookup_some_mem (a : String) (p : Proxy) :
    ∀ reg : Registry, dictLookup reg a = some p → (a, p) ∈ reg := by
  intro reg
  induction reg with
  | nil => intro h; exact absurd h (by simp [dictLookup])
  | cons kv rest ih =>
    obtain ⟨k', v'⟩ := kv
    intro h
    simp only [dictLookup] at h
    by_cases hk : k' = a
    · rw [if_pos hk] at h
      obtain rfl : v' = p := Option.some.inj h
      subst hk
      exact List.mem_cons_self _ _
    · rw [if_neg hk] at h
      exact List.mem_cons_of_mem _ (ih h)

theorem mem_dictLookup_of_nodup (a : String) (p : Proxy) :
    ∀ reg : Registry, (regKeys reg).Nodup → (a, p) ∈ reg → dictLookup reg a = some p := by
  intro reg
  induction reg with
  | nil => intro _ h; exact absurd h (List.not_mem_nil _)
  | cons kv rest ih =>
    obtain ⟨k', v'⟩ := kv
    intro hnd h
    simp only [regKeys, List.map_cons, List.nodup_cons] at hnd
    rcases List.mem_cons.mp h with h1 | h1
    · have e1 : a = k' := congrArg Prod.fst h1
      have e2 : p = v' := congrArg Prod.snd h1
      rw [e2, ← e1]
      simp [dictLookup]
    · have hka : k' ≠ a := by
        intro hk
        subst hk
        exact hnd.1 (List.mem_map.mpr ⟨(k', p), h1, rfl⟩)
      simp only [dictLookup, if_neg hka]
      exact ih hnd.2 h1

theorem validProxy_iff (p : Proxy) :
    validProxy p = true ↔ pyAddressOk p.ip = true ∧ 1 ≤ p.port ∧ p.port ≤ 65535 := by
  simp [validProxy, Bool.and_eq_true, decide_eq_true_eq, and_assoc]

theorem nodup_regKeys_addProxy (reg : Registry) (p : Proxy)
    (h : (regKeys reg).Nodup) : (regKeys (addProxy reg p)).Nodup := by
  unfold addProxy
  by_cases hv : validProxy p = true
  · rw [if_pos hv]
    exact nodup_regKeys_dictInsert p.address p reg h
  · rw [if_neg hv]
    exact h

theorem countKey_dictInsert (k : String) (v : Proxy) :
    ∀ reg : Registry, (regKeys reg).Nodup →
      ((dictInsert reg k v).filter (fun kv => kv.1 == k)).length = 1 := by
  intro reg
  induction reg with
  | nil => intro _; simp [dictInsert]
  | cons kv rest ih =>
    obtain ⟨k', v'⟩ := kv
    intro hnd
    simp only [regKeys, List.map_cons, List.nodup_cons] at hnd
    by_cases hk : k' = k
    · subst hk
      simp only [dictInsert, if_true, eq_self_iff_true]
      have hrest : rest.filter (fun kv => kv.1 == k') = [] := by
        rw [List.filter_eq_nil_iff]
        intro kv hkv
        simp only [beq_iff_eq]
        intro he
        exact hnd.1 (List.mem_map.mpr ⟨kv, hkv, he⟩)
      simp [hrest]
    · simp only [dictInsert]
      rw [if_neg hk]
      have : ((k', v') :: dictInsert rest k v).filter (fun kv => kv.1 == k) =
          (dictInsert rest k v).filter (fun kv => kv.1 == k) := by
        rw [List.filter_cons_of_neg]
        simp [hk]
      rw [this]
      exact ih hnd.2

/-- A JSON source whose element carries an integer address value:
`[{"ip":5,"port":8080}]`. -/
def respC1 : SourceResponse :=
  { contentType := "application/json"
    json := some (.jarr [.jobj [("ip", .jnum 5), ("port", .jnum 8080)]])
    text := "" }

/-- Counterexample to C1: for the JSON element `{"ip":5,"port":8080}`
the program constructs `Proxy(ip=5)` and `_add_proxy` stores it under
the key `"5:8080"`, because `ipaddress.ip_address(5)` succeeds on
integers; but the stored record's address does not parse as a valid
IPv4 or IPv6 literal — neither its `str()` form `"5"` nor the full
endpoint key does — so the registry holds a record violating the
claimed invariant. -/
theorem c1_counterexample :
    (scrapeSource (.success respC1) []).1 =
      [("5:8080", { ip := IpVal.vint 5, port := 8080 })] ∧
    isValidIP (pyStrIp (IpVal.vint 5)) = false ∧
    isValidIP "5:8080" = false :=
  ⟨by decide, by decide, by decide⟩

/-- C1 as amended: every record stored in the registry by any sequence
of registrations has an address value accepted by
`ipaddress.ip_address` and a port in `[1, 65535]`; for string-valued
addresses (in particular every line-parsed candidate) acceptance is
exactly syntactic IPv4/IPv6-literal validity, but an integer (or
boolean) address value in the 128-bit range is also accepted and
stored, so a stored record's address need not be a valid literal.  A
candidate violating the guard leaves the registry unchanged (rejected,
never stored). -/
theorem c1_amended_registry_validity :
    (∀ (cs : List Proxy) (k : String) (p : Proxy), (k, p) ∈ foldAdd cs [] →
      pyAddressOk p.ip = true ∧ 1 ≤ p.port ∧ p.port ≤ 65535) ∧
    (∀ s : String, pyAddressOk (IpVal.vstr s) = isValidIP s) ∧
    (∀ (reg : Registry) (p : Proxy),
      ¬(pyAddressOk p.ip = true ∧ 1 ≤ p.port ∧ p.port ≤ 65535) → addProxy reg p = reg) := by
  refine ⟨?_, fun _ => rfl, ?_⟩
  · intro cs k p h
    rw [foldAdd_eq_foldIns] at h
    rcases mem_foldIns validProxy k p cs [] h with h1 | h1
    · exact absurd h1 (List.not_mem_nil _)
    · exact (validProxy_iff p).mp h1.2.1
  · intro reg p h
    unfold addProxy
    rw [if_neg (fun hv => h ((validProxy_iff p).mp hv))]

/-- Witness for the amended C1 at concrete inputs: a record registered
from a valid string candidate satisfies the guard, and an invalid
candidate is not stored. -/
theorem c1_amended_registry_validity_witness :
    (pyAddressOk (Proxy.ip { ip := IpVal.vstr "1.2.3.4", port := 8080 }) = true ∧
      1 ≤ (Proxy.port { ip := IpVal.vstr "1.2.3.4", port := 8080 }) ∧
      (Proxy.port { ip := IpVal.vstr "1.2.3.4", port := 8080 }) ≤ 65535) ∧
    addProxy [] { ip := IpVal.vstr "999.1.1.1", port := 80 } = [] :=
  ⟨c1_amended_registry_validity.1 [{ ip := IpVal.vstr "1.2.3.4", port := 8080 }] "1.2.3.4:8080"
      { ip := IpVal.vstr "1.2.3.4", port := 8080 } (by decide),
    c1_amended_registry_validity.2.2 [] { ip := IpVal.vstr "999.1.1.1", port := 80 } (by decide)⟩

/-- C2: registering two candidates with the same endpoint leaves exactly
one record under that endpoint key, holding the later candidate's
values (last write wins; no duplicate key is created). -/
theorem c2_last_write_wins (reg : Registry) (p1 p2 : Proxy)
    (hnd : (regKeys reg).Nodup) (_haddr : p1.address = p2.address)
    (hv : validProxy p2 = true) :
    dictLookup (addProxy (addProxy reg p1) p2) p2.address = some p2 ∧
    ((addProxy (addProxy reg p1) p2).filter
      (fun kv => kv.1 == p2.address)).length = 1 := by
  have hnd1 : (regKeys (addProxy reg p1)).Nodup := nodup_regKeys_addProxy reg p1 hnd
  constructor
  · show dictLookup (addProxy (addProxy reg p1) p2) p2.address = some p2
    unfold addProxy
    rw [if_pos hv, dictLookup_insert, if_pos rfl]
  · show ((addProxy (addProxy reg p1) p2).filter
      (fun kv => kv.1 == p2.address)).length = 1
    conv in addProxy (addProxy reg p1) p2 => unfold addProxy
    rw [if_pos hv]
    exact countKey_dictInsert p2.address p2 (addProxy reg p1) hnd1

/-- Witness for C2: two candidates for `1.2.3.4:8080` differing in
`country`; the snapshot holds one record with the later metadata. -/
theorem c2_last_write_wins_witness :
    dictLookup (addProxy (addProxy [] { ip := IpVal.vstr "1.2.3.4", port := 8080, country := "A" })
        { ip := IpVal.vstr "1.2.3.4", port := 8080, country := "B" }) 
      (Proxy.address { ip := IpVal.vstr "1.2.3.4", port := 8080, country := "B" }) =
      some { ip := IpVal.vstr "1.2.3.4", port := 8080, country := "B" } ∧
    ((addProxy (addProxy [] { ip := IpVal.vstr "1.2.3.4", port := 8080, country := "A" })
        { ip := IpVal.vstr "1.2.3.4", port := 8080, country := "B" }).filter
      (fun kv => kv.1 == Proxy.address { ip := IpVal.vstr "1.2.3.4", port := 8080, country := "B" })).length = 1 :=
  c2_last_write_wins [] { ip := IpVal.vstr "1.2.3.4", port := 8080, country := "A" }
    { ip := IpVal.vstr "1.2.3.4", port := 8080, country := "B" } (by decide) (by decide) (by decide)

theorem quickFilter_eq_foldIns (qf : String → Int → Bool) (reg : Registry) :
    quickFilter qf reg =
      foldIns (fun _ => true)
        ((reg.map (fun kv => kv.2)).filter (fun p => socketOk qf p.ip p.port)) [] := by
  unfold quickFilter foldIns
  congr 1

theorem valStepOut_ip (p : Proxy) (out : ValOutcome) (now : String) :
    (valStepOut p out now).ip = p.ip := by
  cases out with
  | failure => rfl
  | response status t0 t1 =>
    by_cases h : status = 200
    · simp [valStepOut, fastValidate, h]
    · simp [valStepOut, fastValidate, h]

theorem valStepOut_port (p : Proxy) (out : ValOutcome) (now : String) :
    (valStepOut p out now).port = p.port := by
  cases out with
  | failure => rfl
  | response status t0 t1 =>
    by_cases h : status = 200
    · simp [valStepOut, fastValidate, h]
    · simp [valStepOut, fastValidate, h]

theorem valStepOut_address (p : Proxy) (out : ValOutcome) (now : String) :
    (valStepOut p out now).address = p.address := by
  unfold Proxy.address
  rw [valStepOut_ip, valStepOut_port]

/-- C10: every registry key equals the stored record's `ip:port`
address string, and this is preserved by registration, by the quick
filter's rebuild of the registry from the surviving records, and by
validation's in-place mutation, which never changes `ip` or `port`. -/
theorem c10_key_consistency :
    (∀ (reg : Registry) (p : Proxy), regInv reg → regInv (addProxy reg p)) ∧
    (∀ (qf : String → Int → Bool) (reg : Registry), regInv (quickFilter qf reg)) ∧
    (∀ (vo : String → ValOutcome) (now : String) (reg : Registry),
      regInv reg → regInv (validateProxies vo now reg)) ∧
    (∀ (p : Proxy) (out : ValOutcome) (now : String),
      (valStepOut p out now).ip = p.ip ∧ (valStepOut p out now).port = p.port) := by
  refine ⟨?_, ?_, ?_, ?_⟩
  · intro reg p h
    unfold addProxy
    by_cases hv : validProxy p = true
    · rw [if_pos hv]
      exact regInv_dictInsert reg p h
    · rw [if_neg hv]
      exact h
  · intro qf reg
    rw [quickFilter_eq_foldIns]
    exact regInv_foldIns (fun _ => true) _ [] (fun kv h => absurd h (List.not_mem_nil _))
  · intro vo now reg h
    intro kv hkv
    unfold validateProxies at hkv
    rcases List.mem_map.mp hkv with ⟨kv0, hkv0, heq⟩
    obtain ⟨k0, p0⟩ := kv0
    have hk : kv.1 = k0 := by rw [← heq]
    have hp : kv.2 = valStepOut p0 (vo (proxyUrl p0)) now := by rw [← heq]
    rw [hk, hp, valStepOut_address]
    exact h (k0, p0) hkv0
  · intro p out now
    exact ⟨valStepOut_ip p out now, valStepOut_port p out now⟩

/-- Witness for C10 at concrete registries: the invariant holds after a
registration, after a quick filter, and after validation. -/
theorem c10_key_consistency_witness :
    regInv (addProxy [("1.2.3.4:8080", { ip := IpVal.vstr "1.2.3.4", port := 8080 })]
      { ip := IpVal.vstr "5.6.7.8", port := 3128 }) ∧
    regInv (quickFilter (fun _ _ => true)
      [("1.2.3.4:8080", { ip := IpVal.vstr "1.2.3.4", port := 8080 })]) ∧
    regInv (validateProxies (fun _ => .failure) "T"
      [("1.2.3.4:8080", { ip := IpVal.vstr "1.2.3.4", port := 8080 })]) :=
  ⟨c10_key_consistency.1 _ _ (by decide),
    c10_key_consistency.2.1 (fun _ _ => true) _,
    c10_key_consistency.2.2.1 (fun _ => .failure) "T" _ (by decide)⟩

theorem parseProxyFromText_some (line : String) (p : Proxy)
    (h : parseProxyFromText line = some p) :
    ∃ a b : List Char, matchIpPortL line.data = some (a, b) ∧
      p = { ip := IpVal.vstr (String.mk a), port := (digitsVal b : Int) } ∧
      isValidIP (String.mk a) = true ∧ 1 ≤ p.port ∧ p.port ≤ 65535 := by
  unfold parseProxyFromText at h
  by_cases he : line.data.isEmpty
  · rw [if_pos he] at h
    exact absurd h (by simp)
  · rw [if_neg he] at h
    cases hm : matchIpPortL line.data with
    | none =>
      rw [hm] at h
      exact absurd h (by simp)
    | some ab =>
      obtain ⟨a, b⟩ := ab
      rw [hm] at h
      simp only at h
      by_cases hc : (isValidIP (String.mk a) && decide (1 ≤ digitsVal b) &&
          decide (digitsVal b ≤ 65535)) = true
      · rw [if_pos hc] at h
        have hp : p = { ip := IpVal.vstr (String.mk a), port := (digitsVal b : Int) } :=
          (Option.some.inj h).symm
        simp only [Bool.and_eq_true, decide_eq_true_eq] at hc
        refine ⟨a, b, rfl, hp, hc.1.1, ?_, ?_⟩
        · rw [hp]
          show (1 : Int) ≤ (digitsVal b : Int)
          exact_mod_cast hc.1.2
        · rw [hp]
          show (digitsVal b : Int) ≤ 65535
          exact_mod_cast hc.2
      · rw [if_neg hc] at h
        exact absurd h (by simp)

/-- C3: a line produces a candidate only if the whole line matches the
`<IPv4>:<port>` pattern, the address passes `ipaddress.ip_address` and
the port lies in `[1, 65535]`; and the example body with two valid and
two invalid lines yields exactly the two valid candidates. -/
theorem c3_line_parsing :
    (∀ (line : String) (p : Proxy), parseProxyFromText line = some p →
      (matchIpPortL line.data).isSome = true ∧
      (∃ s : String, p.ip = IpVal.vstr s ∧ isValidIP s = true) ∧
      1 ≤ p.port ∧ p.port ≤ 65535) ∧
    lineCandidates "1.2.3.4:8080\nnot-a-proxy\n999.1.1.1:80\n5.6.7.8:3128" =
      [{ ip := IpVal.vstr "1.2.3.4", port := 8080 },
       { ip := IpVal.vstr "5.6.7.8", port := 3128 }] := by
  constructor
  · intro line p h
    obtain ⟨a, b, hm, hp, hv, h1, h2⟩ := parseProxyFromText_some line p h
    exact ⟨by rw [hm]; rfl, ⟨String.mk a, by rw [hp], hv⟩, h1, h2⟩
  · decide

/-- Witness for C3: the implication applied to the line
`"1.2.3.4:8080"` and the candidate it produces. -/
theorem c3_line_parsing_witness :
    (matchIpPortL ("1.2.3.4:8080" : String).data).isSome = true ∧
    (∃ s : String, Proxy.ip { ip := IpVal.vstr "1.2.3.4", port := 8080 } = IpVal.vstr s ∧
      isValidIP s = true) ∧
    1 ≤ (Proxy.port { ip := IpVal.vstr "1.2.3.4", port := 8080 }) ∧
    (Proxy.port { ip := IpVal.vstr "1.2.3.4", port := 8080 }) ≤ 65535 :=
  c3_line_parsing.1 "1.2.3.4:8080" { ip := IpVal.vstr "1.2.3.4", port := 8080 } (by decide)

/-- C4: a validated record is marked working exactly when the request
through the proxy returned status 200 within the timeout (any timeout,
connection failure or exception is `ValOutcome.failure`; a non-200
status fails); on success the latency is set to the measured wall-clock
round-trip duration (and the anonymity to `"unknown"`); on failure the
latency is left unchanged; and `last_checked` is stamped for every
validated record regardless of outcome. -/
theorem c4_validation_outcome (p : Proxy) (out : ValOutcome) (now : String) :
    ((valStepOut p out now).working = true ↔ ∃ t0 t1, out = .response 200 t0 t1) ∧
    (∀ t0 t1, out = .response 200 t0 t1 →
      (valStepOut p out now).speed = t1 - t0 ∧
      (valStepOut p out now).anonymity = "unknown") ∧
    (∀ status t0 t1, out = .response status t0 t1 → status ≠ 200 →
      (valStepOut p out now).working = false ∧ (valStepOut p out now).speed = p.speed) ∧
    (out = .failure →
      (valStepOut p out now).working = false ∧ (valStepOut p out now).speed = p.speed) ∧
    (valStepOut p out now).last_checked = now := by
  refine ⟨?_, ?_, ?_, ?_, ?_⟩
  · constructor
    · intro hw
      cases out with
      | failure => exact absurd hw (by simp [valStepOut, fastValidate])
      | response status t0 t1 =>
        by_cases h : status = 200
        · exact ⟨t0, t1, by rw [h]⟩
        · exact absurd hw (by simp [valStepOut, fastValidate, h])
    · rintro ⟨t0, t1, rfl⟩
      simp [valStepOut, fastValidate]
  · rintro t0 t1 rfl
    simp [valStepOut, fastValidate]
  · rintro status t0 t1 rfl h
    simp [valStepOut, fastValidate, h]
  · rintro rfl
    simp [valStepOut, fastValidate]
  · cases out with
    | failure => rfl
    | response status t0 t1 =>
      by_cases h : status = 200
      · simp [valStepOut, fastValidate, h]
      · simp [valStepOut, fastValidate, h]

/-- Witness for C4: a 200 response marks the record working; a failure
and a 503 response do not; the timestamp is always stamped. -/
theorem c4_validation_outcome_witness :
    (valStepOut { ip := IpVal.vstr "1.2.3.4", port := 8080 } (.response 200 0 1) "T").working = true ∧
    (valStepOut { ip := IpVal.vstr "1.2.3.4", port := 8080 } .failure "T").working = false ∧
    (valStepOut { ip := IpVal.vstr "1.2.3.4", port := 8080 } (.response 503 0 1) "T").working = false ∧
    (valStepOut { ip := IpVal.vstr "1.2.3.4", port := 8080 } .failure "T").last_checked = "T" :=
  ⟨(c4_validation_outcome { ip := IpVal.vstr "1.2.3.4", port := 8080 } (.response 200 0 1) "T").1.mpr
      ⟨0, 1, rfl⟩,
    ((c4_validation_outcome { ip := IpVal.vstr "1.2.3.4", port := 8080 } .failure "T").2.2.2.1 rfl).1,
    ((c4_validation_outcome { ip := IpVal.vstr "1.2.3.4", port := 8080 } (.response 503 0 1) "T").2.2.1
      503 0 1 rfl (by decide)).1,
    (c4_validation_outcome { ip := IpVal.vstr "1.2.3.4", port := 8080 } .failure "T").2.2.2.2⟩

/-- The JSON body of the C5 example:
`[{"ip":"1.2.3.4","port":8080},{"host":"bad"}]`. -/
def respC5 : SourceResponse :=
  { contentType := "application/json"
    json := some (.jarr [.jobj [("ip", .jstr "1.2.3.4"), ("port", .jnum 8080)],
                         .jobj [("host", .jstr "bad")]])
    text := "" }

/-- C5: an element of a structured source that fails extraction (missing
address or port, or a failing field conversion) is skipped without
affecting the other elements; the example array yields exactly the one
record `1.2.3.4:8080`, and the element missing a port is skipped. -/
theorem c5_element_isolation :
    (∀ (pre post : List Jval) (item : Jval), extractItem item = none →
      (pre ++ item :: post).filterMap extractItem = (pre ++ post).filterMap extractItem) ∧
    structuredCandidates respC5 = [{ ip := IpVal.vstr "1.2.3.4", port := 8080 }] ∧
    extractItem (.jobj [("host", .jstr "bad")]) = none ∧
    scrapeSource (.success respC5) [] =
      ([("1.2.3.4:8080", { ip := IpVal.vstr "1.2.3.4", port := 8080 })], 1) := by
  refine ⟨?_, by decide, by decide, by decide⟩
  intro pre post item h
  rw [List.filterMap_append, List.filterMap_append, List.filterMap_cons_none h]

/-- Witness for C5: dropping the port-less element from the example
array does not change the extracted candidates. -/
theorem c5_element_isolation_witness :
    ([Jval.jobj [("ip", Jval.jstr "1.2.3.4"), ("port", Jval.jnum 8080)]] ++
        Jval.jobj [("host", Jval.jstr "bad")] :: []).filterMap extractItem =
      ([Jval.jobj [("ip", Jval.jstr "1.2.3.4"), ("port", Jval.jnum 8080)]] ++
        []).filterMap extractItem :=
  c5_element_isolation.1 [Jval.jobj [("ip", Jval.jstr "1.2.3.4"), ("port", Jval.jnum 8080)]] []
    (Jval.jobj [("host", Jval.jstr "bad")]) (by decide)

/-- C6: for a fetched response, the structured parse is attempted first
(and yields nothing at all when the content type does not indicate
JSON), and the line-oriented parse contributes exactly when the
structured parse produced zero candidates. -/
theorem c6_structured_first (r : SourceResponse) (reg : Registry) :
    (scrapeSource (.success r) reg =
      if (structuredCandidates r).length = 0 then
        (foldAdd (lineCandidates r.text) reg, (lineCandidates r.text).length)
      else (foldAdd (structuredCandidates r) reg, (structuredCandidates r).length)) ∧
    (hasJsonCT r.contentType = false → structuredCandidates r = []) := by
  constructor
  · by_cases h0 : (structuredCandidates r).length = 0
    · have he : structuredCandidates r = [] := List.length_eq_zero.mp h0
      rw [if_pos h0]
      simp [scrapeSource, he, foldAdd]
    · rw [if_neg h0]
      simp [scrapeSource, h0]
  · intro hct
    simp [structuredCandidates, structuredItems, hct]

/-- Witness for C6: the characterization applied to the JSON response
with one candidate, and a plain-text response's structured parse is
empty (its content type does not indicate JSON). -/
theorem c6_structured_first_witness :
    (scrapeSource (.success respC5) [] =
      if (structuredCandidates respC5).length = 0 then
        (foldAdd (lineCandidates (SourceResponse.text respC5)) [],
          (lineCandidates (SourceResponse.text respC5)).length)
      else (foldAdd (structuredCandidates respC5) [], (structuredCandidates respC5).length)) ∧
    structuredCandidates { contentType := "text/plain", json := none, text := "1.2.3.4:80" } = [] :=
  ⟨(c6_structured_first respC5 []).1,
    (c6_structured_first { contentType := "text/plain", json := none, text := "1.2.3.4:80" }
      []).2 (by decide)⟩

/-- A JSON source element that reports a `speed` field:
`[{"ip":"9.9.9.9","port":1080,"speed":3}]`. -/
def respC8 : SourceResponse :=
  { contentType := "application/json"
    json := some (.jarr [.jobj
      [("ip", .jstr "9.9.9.9"), ("port", .jnum 1080), ("speed", .jnum 3)]])
    text := "" }

/-- Counterexample to C8: scraping a structured source whose element
carries `"speed": 3` stores a registry record with a nonzero latency
before any validation has happened (the record is not even marked
working), so a record can carry a nonzero latency that was not measured
by this run's validator. -/
theorem c8_counterexample :
    dictLookup (scrapeSource (.success respC8) []).1 "9.9.9.9:1080" =
      some { ip := IpVal.vstr "9.9.9.9", port := 1080, speed := 3 } ∧
    (Proxy.speed { ip := IpVal.vstr "9.9.9.9", port := 1080, speed := 3 } ≠ 0) ∧
    Proxy.working { ip := IpVal.vstr "9.9.9.9", port := 1080, speed := 3 } = false := by
  refine ⟨by decide, ?_, by decide⟩
  intro h
  exact absurd h (by norm_num)

/-- C8 as amended: a record's latency is `0` until its first successful
validation measurement, except that the structured (JSON) parse copies
a source-supplied `speed` field into the record; line-oriented parsing
always produces records with latency `0`, and registration stores
candidates unchanged (it never synthesizes a latency). -/
theorem c8_amended_latency (line : String) (p : Proxy) (reg : Registry)
    (q : Proxy) (k : String) (hline : parseProxyFromText line = some p)
    (hmem : (k, q) ∈ addProxy reg p) :
    p.speed = 0 ∧ ((k, q) ∈ reg ∨ q = p) := by
  constructor
  · obtain ⟨a, b, _, hp, _⟩ := parseProxyFromText_some line p hline
    rw [hp]
  · unfold addProxy at hmem
    by_cases hv : validProxy p = true
    · rw [if_pos hv] at hmem
      rcases mem_dictInsert p.address k p q reg hmem with h1 | h1
      · exact Or.inl h1
      · exact Or.inr h1.2
    · rw [if_neg hv] at hmem
      exact Or.inl hmem

/-- Witness for the amended C8: the line-parsed candidate for
`1.2.3.4:8080` has latency `0`, and registering it stores it unchanged. -/
theorem c8_amended_latency_witness :
    Proxy.speed { ip := IpVal.vstr "1.2.3.4", port := 8080 } = 0 ∧
    (("1.2.3.4:8080", ({ ip := IpVal.vstr "1.2.3.4", port := 8080 } : Proxy)) ∈ ([] : Registry) ∨
      ({ ip := IpVal.vstr "1.2.3.4", port := 8080 } : Proxy) = { ip := IpVal.vstr "1.2.3.4", port := 8080 }) :=
  c8_amended_latency "1.2.3.4:8080" { ip := IpVal.vstr "1.2.3.4", port := 8080 } []
    { ip := IpVal.vstr "1.2.3.4", port := 8080 } "1.2.3.4:8080" (by decide) (by decide)

theorem runScrape_replicate_failure (n : Nat) (reg : Registry) :
    runScrape (List.replicate n .failure) reg = reg := by
  induction n with
  | zero => rfl
  | succ m ih =>
    simp only [List.replicate_succ, runScrape, List.foldl_cons]
    exact ih

/-- C7: a fetch failure contributes zero records and leaves the registry
exactly as it was; removing a failed source from a run changes nothing;
and a run in which every source fails still completes and produces all
four artifacts (empty proxy list, header-only CSV, README reporting
zero working proxies). -/
theorem c7_run_always_completes :
    (∀ reg : Registry, scrapeSource .failure reg = (reg, 0)) ∧
    (∀ (outs1 outs2 : List FetchOutcome) (reg : Registry),
      runScrape (outs1 ++ .failure :: outs2) reg = runScrape (outs1 ++ outs2) reg) ∧
    (∀ (n : Nat) (qf : String → Int → Bool) (vo : String → ValOutcome) (now : String),
      runPipeline (List.replicate n .failure) qf vo now =
        { txt := "", allJson := [], workingJson := [], csv := [csvHeader],
          readme := readmeText now 0 }) := by
  refine ⟨fun _ => rfl, ?_, ?_⟩
  · intro outs1 outs2 reg
    simp only [runScrape, List.foldl_append, List.foldl_cons]
    rfl
  · intro n qf vo now
    unfold runPipeline finalRegistry
    rw [runScrape_replicate_failure]
    rfl

/-- Whether a validation outcome counts as success (status 200). -/
def valSuccess : ValOutcome → Bool
  | .response status _ _ => status == 200
  | .failure => false

theorem valStepOut_working (p : Proxy) (out : ValOutcome) (now : String) :
    (valStepOut p out now).working = valSuccess out := by
  cases out with
  | failure => rfl
  | response status t0 t1 =>
    by_cases h : status = 200
    · simp [valStepOut, fastValidate, valSuccess, h]
    · simp [valStepOut, fastValidate, valSuccess, h]

theorem foldAdd_append (l1 l2 : List Proxy) (reg : Registry) :
    foldAdd (l1 ++ l2) reg = foldAdd l2 (foldAdd l1 reg) := by
  simp [foldAdd, List.foldl_append]

theorem scrapeSource_fst (out : FetchOutcome) (reg : Registry) :
    (scrapeSource out reg).1 = foldAdd (sourceCandidates out) reg := by
  cases out with
  | failure => rfl
  | success r =>
    by_cases h0 : (structuredCandidates r).length = 0
    · have he : structuredCandidates r = [] := List.length_eq_zero.mp h0
      simp [scrapeSource, sourceCandidates, h0, he, foldAdd]
    · simp [scrapeSource, sourceCandidates, h0]

theorem mem_foldAdd_nil (cs : List Proxy) (k : String) (p : Proxy)
    (h : (k, p) ∈ foldAdd cs []) :
    p ∈ cs ∧ validProxy p = true ∧ k = p.address := by
  rw [foldAdd_eq_foldIns] at h
  rcases mem_foldIns validProxy k p cs [] h with h1 | h1
  · exact absurd h1 (List.not_mem_nil _)
  · exact h1

theorem mem_quickFilter_foldAdd (cs : List Proxy) (qf : String → Int → Bool)
    (k : String) (p : Proxy) (h : (k, p) ∈ quickFilter qf (foldAdd cs [])) :
    p ∈ cs ∧ validProxy p = true ∧ socketOk qf p.ip p.port = true ∧ k = p.address := by
  rw [quickFilter_eq_foldIns] at h
  rcases mem_foldIns (fun _ => true) k p _ [] h with h1 | h1
  · exact absurd h1 (List.not_mem_nil _)
  · have hf := List.mem_filter.mp h1.1
    rcases List.mem_map.mp hf.1 with ⟨kv, hkv, hkv2⟩
    obtain ⟨k0, p0⟩ := kv
    have hp0 : p0 = p := hkv2
    subst hp0
    have hr := mem_foldAdd_nil cs k0 p0 hkv
    exact ⟨hr.1, hr.2.1, hf.2, h1.2.2⟩

theorem workingAddr_mem_iff (cs : List Proxy) (qf : String → Int → Bool)
    (vo : String → ValOutcome) (now a : String)
    (hagree : ∀ p ∈ cs, ∀ q ∈ cs, p.address = q.address →
      p.ip = q.ip ∧ p.port = q.port ∧ p.protocol = q.protocol) :
    a ∈ (workingRecs (validateProxies vo now (quickFilter qf (foldAdd cs [])))).map
        Proxy.address ↔
      ∃ p ∈ cs, validProxy p = true ∧ p.address = a ∧ socketOk qf p.ip p.port = true ∧
        valSuccess (vo (proxyUrl p)) = true := by
  constructor
  · intro h
    rcases List.mem_map.mp h with ⟨q, hq, hqa⟩
    have hq2 := List.mem_filter.mp hq
    rcases List.mem_map.mp hq2.1 with ⟨kv, hkv, hkv2⟩
    unfold validateProxies at hkv
    rcases List.mem_map.mp hkv with ⟨kv0, hkv0, hmap⟩
    obtain ⟨k1, p1⟩ := kv0
    have hq3 : q = valStepOut p1 (vo (proxyUrl p1)) now := by
      rw [← hkv2, ← hmap]
    have hps := mem_quickFilter_foldAdd cs qf k1 p1 hkv0
    refine ⟨p1, hps.1, hps.2.1, ?_, hps.2.2.1, ?_⟩
    · rw [← hqa, hq3, valStepOut_address]
    · have hw := hq2.2
      rw [hq3, valStepOut_working] at hw
      exact hw
  · rintro ⟨p, hpcs, hpv, hpa, hpqf, hpvo⟩
    have hlook : (dictLookup (foldAdd cs []) a).isSome = true := by
      rw [foldAdd_eq_foldIns, lookup_foldIns]
      exact (lastHit_isSome validProxy a cs (dictLookup [] a)).mpr
        (Or.inl ⟨p, hpcs, hpv, hpa⟩)
    obtain ⟨p0, hp0⟩ := Option.isSome_iff_exists.mp hlook
    have hp0mem : (a, p0) ∈ foldAdd cs [] := dictLookup_some_mem a p0 _ hp0
    have hp0p := mem_foldAdd_nil cs a p0 hp0mem
    have hag0 := hagree p0 hp0p.1 p hpcs (by rw [← hp0p.2.2, hpa])
    have hsurv : p0 ∈ (((foldAdd cs []).map (fun kv => kv.2)).filter
        (fun p => socketOk qf p.ip p.port)) := by
      apply List.mem_filter.mpr
      refine ⟨List.mem_map.mpr ⟨(a, p0), hp0mem, rfl⟩, ?_⟩
      rw [hag0.1, hag0.2.1]
      exact hpqf
    have hlook2 : (dictLookup (quickFilter qf (foldAdd cs [])) a).isSome = true := by
      rw [quickFilter_eq_foldIns, lookup_foldIns]
      exact (lastHit_isSome (fun _ => true) a _ (dictLookup [] a)).mpr
        (Or.inl ⟨p0, hsurv, rfl, hp0p.2.2.symm⟩)
    obtain ⟨p1, hp1⟩ := Option.isSome_iff_exists.mp hlook2
    have hp1mem : (a, p1) ∈ quickFilter qf (foldAdd cs []) := dictLookup_some_mem a p1 _ hp1
    have hp1p := mem_quickFilter_foldAdd cs qf a p1 hp1mem
    have hag1 := hagree p1 hp1p.1 p hpcs (by rw [← hp1p.2.2.2, hpa])
    have hurl : proxyUrl p1 = proxyUrl p := by
      unfold proxyUrl Proxy.address
      rw [hag1.1, hag1.2.1, hag1.2.2]
    apply List.mem_map.mpr
    refine ⟨valStepOut p1 (vo (proxyUrl p1)) now, ?_, ?_⟩
    · apply List.mem_filter.mpr
      constructor
      · apply List.mem_map.mpr
        refine ⟨(a, valStepOut p1 (vo (proxyUrl p1)) now), ?_, rfl⟩
        unfold validateProxies
        exact List.mem_map.mpr ⟨(a, p1), hp1mem, rfl⟩
      · rw [valStepOut_working, hurl]
        exact hpvo
    · rw [valStepOut_address]
      exact hp1p.2.2.2.symm

/-- The text response of the C9 scenario: `1.2.3.4:80` as plain text. -/
def respC9A : SourceResponse :=
  { contentType := "text/plain", json := none, text := "1.2.3.4:80" }

/-- The JSON response of the C9 scenario: the same endpoint, with the
source-supplied metadata `"country": "US"`. -/
def respC9B : SourceResponse :=
  { contentType := "application/json"
    json := some (.jarr [.jobj
      [("ip", .jstr "1.2.3.4"), ("port", .jnum 80), ("country", .jstr "US")]])
    text := "" }

/-- Counterexample to C9: two runs over the same two mocked source
responses (one plain-text, one JSON, both listing `1.2.3.4:80`, the
JSON one with `country = "US"`), differing only in the order in which
the sources' registrations complete, produce different final working
sets of proxy records: last-write-wins keeps `country = "US"` in one
run and `country = ""` in the other. -/
theorem c9_counterexample :
    ([FetchOutcome.success respC9A, FetchOutcome.success respC9B].Perm
      [FetchOutcome.success respC9B, FetchOutcome.success respC9A]) ∧
    (workingRecs (finalRegistry [.success respC9A, .success respC9B]
        (fun _ _ => true) (fun _ => .response 200 0 1) "T")).toFinset ≠
      (workingRecs (finalRegistry [.success respC9B, .success respC9A]
        (fun _ _ => true) (fun _ => .response 200 0 1) "T")).toFinset := by
  refine ⟨List.Perm.swap _ _ _, ?_⟩
  intro h
  have him := congrArg (Finset.image Proxy.country) h
  have e1 : Finset.image Proxy.country
      (workingRecs (finalRegistry [.success respC9A, .success respC9B]
        (fun _ _ => true) (fun _ => .response 200 0 1) "T")).toFinset = {"US"} := by decide
  have e2 : Finset.image Proxy.country
      (workingRecs (finalRegistry [.success respC9B, .success respC9A]
        (fun _ _ => true) (fun _ => .response 200 0 1) "T")).toFinset = {""} := by decide
  rw [e1, e2] at him
  exact absurd him (by decide)

/-- C9 as amended: the pipeline's final set of working endpoints is
independent of the order in which the candidates are merged into the
registry, provided all candidates sharing an endpoint address agree on
`ip`, `port` and `protocol`; the full working records may still differ
between two runs in other source-supplied metadata (such as
`country`), decided by last-write-wins over the completion order.
The registrations of a scrape are exactly a fold of `_add_proxy` over
the concatenated per-source candidate lists. -/
theorem c9_amended_schedule_independent (cs1 cs2 : List Proxy)
    (qf : String → Int → Bool) (vo : String → ValOutcome) (now : String)
    (hperm : cs1.Perm cs2)
    (hagree : ∀ p ∈ cs1, ∀ q ∈ cs1, p.address = q.address →
      p.ip = q.ip ∧ p.port = q.port ∧ p.protocol = q.protocol) :
    ((workingRecs (validateProxies vo now (quickFilter qf (foldAdd cs1 [])))).map
        Proxy.address).toFinset =
      ((workingRecs (validateProxies vo now (quickFilter qf (foldAdd cs2 [])))).map
        Proxy.address).toFinset ∧
    (∀ (outs : List FetchOutcome) (reg : Registry),
      runScrape outs reg = foldAdd (allCandidates outs) reg) := by
  constructor
  · apply Finset.ext
    intro a
    rw [List.mem_toFinset, List.mem_toFinset]
    have hagree2 : ∀ p ∈ cs2, ∀ q ∈ cs2, p.address = q.address →
        p.ip = q.ip ∧ p.port = q.port ∧ p.protocol = q.protocol := by
      intro p hp q hq
      exact hagree p (hperm.mem_iff.mpr hp) q (hperm.mem_iff.mpr hq)
    rw [workingAddr_mem_iff cs1 qf vo now a hagree,
      workingAddr_mem_iff cs2 qf vo now a hagree2]
    constructor
    · rintro ⟨p, hp, hrest⟩
      exact ⟨p, hperm.mem_iff.mp hp, hrest⟩
    · rintro ⟨p, hp, hrest⟩
      exact ⟨p, hperm.mem_iff.mpr hp, hrest⟩
  · intro outs
    induction outs with
    | nil => intro reg; rfl
    | cons o os ih =>
      intro reg
      have h1 : runScrape (o :: os) reg = runScrape os ((scrapeSource o reg).1) := rfl
      rw [h1, scrapeSource_fst, ih]
      show foldAdd (allCandidates os) (foldAdd (sourceCandidates o) reg) =
        foldAdd (allCandidates (o :: os)) reg
      simp only [allCandidates, List.flatMap_cons, foldAdd_append]

/-- Witness for the amended C9: two candidate lists merging the same
two records (same endpoint, same protocol, different `country`) in both
orders produce the same working endpoint set. -/
theorem c9_amended_schedule_independent_witness :
    ((workingRecs (validateProxies (fun _ => .response 200 0 1) "T"
        (quickFilter (fun _ _ => true)
          (foldAdd [{ ip := IpVal.vstr "1.2.3.4", port := 80 },
                    { ip := IpVal.vstr "1.2.3.4", port := 80, country := "US" }] [])))).map
        Proxy.address).toFinset =
      ((workingRecs (validateProxies (fun _ => .response 200 0 1) "T"
        (quickFilter (fun _ _ => true)
          (foldAdd [{ ip := IpVal.vstr "1.2.3.4", port := 80, country := "US" },
                    { ip := IpVal.vstr "1.2.3.4", port := 80 }] [])))).map
        Proxy.address).toFinset :=
  (c9_amended_schedule_independent
    [{ ip := IpVal.vstr "1.2.3.4", port := 80 }, { ip := IpVal.vstr "1.2.3.4", port := 80, country := "US" }]
    [{ ip := IpVal.vstr "1.2.3.4", port := 80, country := "US" }, { ip := IpVal.vstr "1.2.3.4", port := 80 }]
    (fun _ _ => true) (fun _ => .response 200 0 1) "T"
    (List.Perm.swap _ _ _) (by decide)).1
